import Mathlib

/-!
Verification of `src/hackernews/get_front_page/run.py`.

The script reads a JSON parameter object from stdin, clamps a `limit`
parameter, fetches the top-story id list, fetches each item on a thread
pool, and re-emits the stories in original rank order.

Shallow embedding: the network and the scheduler are modelled as an
explicit `World`:
  * `stdin`    — `none` models `json.load(sys.stdin)` raising (malformed
    JSON); `some params` models a parsed parameter object.
  * `topstories` — the outcome of the `topstories.json` request:
    `Except.error ()` models any raised exception (network error,
    `raise_for_status` on a non-success status, or a JSON parse error);
    `Except.ok ids` models a successfully parsed id list.
  * `fetch p`  — the outcome of the item request submitted for position
    `p` of the truncated id list (`executor.submit(fetch_item, sid)`);
    duplicated ids get independent submissions, one per position.
  * `order`    — the completion order of the futures, i.e. the order in
    which `as_completed` yields the positions.
All container/JSON values are modelled with `Option`/`List`; integers are
unbounded (Python ints are arbitrary precision).
-/

/-- A raw item as parsed from the item endpoint's JSON body.  Fields not
present in the JSON object are `none`.  `by_` stands for the JSON field
`"by"` (`by` is reserved in Lean).  Upstream `time` is a unix timestamp in
seconds, non-negative. -/
structure RawItem where
  id : Option Int := none
  title : Option String := none
  url : Option String := none
  text : Option String := none
  by_ : Option String := none
  score : Option Int := none
  descendants : Option Int := none
  time : Option Nat := none
  type : Option String := none
deriving DecidableEq

/-- The normalized output record built by `format_story`. -/
structure Story where
  id : Option Int
  title : Option String
  url : Option String
  text : Option String
  author : Option String
  score : Int
  comment_count : Int
  created_at : String
  type : Option String
deriving DecidableEq

/-- Left-pad a number to two digits, as `datetime.isoformat` prints
month, day, hour, minute and second fields. -/
def pad2 (n : Nat) : String :=
  if n < 10 then "0" ++ toString n else toString n

/-- Left-pad a number to four digits, as `datetime.isoformat` prints the
year field. -/
def pad4 (n : Nat) : String :=
  if n < 10 then "000" ++ toString n
  else if n < 100 then "00" ++ toString n
  else if n < 1000 then "0" ++ toString n
  else toString n

/-- Convert a count of days since 1970-01-01 into a proleptic-Gregorian
civil date `(year, month, day)` (days-to-civil algorithm, restricted to
non-negative day counts, i.e. timestamps at or after the epoch). -/
def civilFromDays (z0 : Nat) : Nat × Nat × Nat :=
  let z := z0 + 719468
  let era := z / 146097
  let doe := z % 146097
  let yoe := (doe - doe / 1460 + doe / 36524 - doe / 146096) / 365
  let y := yoe + era * 400
  let doy := doe - (365 * yoe + yoe / 4 - yoe / 100)
  let mp := (5 * doy + 2) / 153
  let d := doy - (153 * mp + 2) / 5 + 1
  let m := if mp < 10 then mp + 3 else mp - 9
  (if m ≤ 2 then y + 1 else y, m, d)

/-- The string `datetime.fromtimestamp(ts, tz=timezone.utc).isoformat()`
produces for a non-negative integer number of seconds `ts`: the date and
time separated by `T`, no microsecond field (it is zero), and the fixed
UTC offset suffix `+00:00`. -/
def isoformatUTC (ts : Nat) : String :=
  let days := ts / 86400
  let secs := ts % 86400
  let ymd := civilFromDays days
  pad4 ymd.1 ++ "-" ++ pad2 ymd.2.1 ++ "-" ++ pad2 ymd.2.2 ++ "T" ++
    pad2 (secs / 3600) ++ ":" ++ pad2 (secs % 3600 / 60) ++ ":" ++
    pad2 (secs % 60) ++ "+00:00"

/-- Embedding of `format_story`: rename `by` to `author`, `descendants`
to `comment_count`, default `score`, `descendants` and `time` to `0`, and
format `time` as an ISO-8601 UTC string. -/
def format_story (item : RawItem) : Story :=
  let timestamp := item.time.getD 0
  let created_at := isoformatUTC timestamp
  { id := item.id
    title := item.title
    url := item.url
    text := item.text
    author := item.by_
    score := item.score.getD 0
    comment_count := item.descendants.getD 0
    created_at := created_at
    type := item.type }

/-- Outcome of one submitted `fetch_item` call.
`exc` models `fetch_item` raising (connection error, timeout,
`raise_for_status` on a non-success HTTP status, or `response.json()`
failing to parse) — `future.result()` re-raises it in `main`.
`val none` models a successful response whose JSON body is falsy
(`null`, as the item endpoint returns for missing ids, or an empty
object); `val (some item)` a successful, truthy item object. -/
inductive FetchResult where
  | exc : FetchResult
  | val : Option RawItem → FetchResult
deriving DecidableEq

/-- The parsed stdin parameter object: its one recognized key. -/
structure Params where
  limit : Option Int
deriving DecidableEq

/-- The JSON object `main` writes to stdout on success. -/
structure Output where
  stories : List Story
  count : Nat
deriving DecidableEq

/-- The environment of one run (network outcomes and scheduling). -/
structure World where
  stdin : Option Params
  topstories : Except Unit (List Int)
  fetch : Nat → FetchResult
  order : List Nat

/-- Embedding of `limit = max(1, min(500, limit))`. -/
def clampLimit (l : Int) : Int :=
  max 1 (min 500 l)

/-- Lookup in a Python-dict-like association list (`story_id in results`
/ `results[story_id]`). -/
def dictLookup (d : List (Int × RawItem)) (k : Int) : Option RawItem :=
  match d with
  | [] => none
  | (k1, v) :: rest => if k1 = k then some v else dictLookup rest k

/-- Insertion into a Python-dict-like association list
(`results[story_id] = item`): replace the value in place if the key is
present, append otherwise. -/
def dictInsert (d : List (Int × RawItem)) (k : Int) (v : RawItem) : List (Int × RawItem) :=
  match d with
  | [] => [(k, v)]
  | (k1, v1) :: rest =>
    if k1 = k then (k1, v) :: rest else (k1, v1) :: dictInsert rest k v

/-- Embedding of `story_ids = response.json()[:limit]` after the clamp:
the id list truncated to the effective limit. -/
def truncIds (params : Params) (all_ids : List Int) : List Int :=
  all_ids.take (clampLimit (params.limit.getD 30)).toNat

/-- Embedding of the `for future in as_completed(future_to_id): ...`
loop.  `order` is the completion order of the submitted positions; for
each completed position `p` the loop first evaluates `future.result()` —
if that submission raised, the exception propagates and `main` aborts
(`Except.error ()`); otherwise, a truthy item is stored in `results`
under its story id and a falsy body is skipped. -/
def collectResults (story_ids : List Int) (fetch : Nat → FetchResult) :
    List Nat → List (Int × RawItem) → Except Unit (List (Int × RawItem))
  | [], results => Except.ok results
  | p :: rest, results =>
    match fetch p with
    | FetchResult.exc => Except.error ()
    | FetchResult.val none => collectResults story_ids fetch rest results
    | FetchResult.val (some item) =>
        collectResults story_ids fetch rest
          (dictInsert results (story_ids.getD p 0) item)

/-- Embedding of the final reassembly loop: walk `story_ids` in original
order and append `format_story(results[story_id])` for each id present
in `results`. -/
def reassemble (story_ids : List Int) (results : List (Int × RawItem)) : List Story :=
  match story_ids with
  | [] => []
  | sid :: rest =>
    match dictLookup results sid with
    | some item => format_story item :: reassemble rest results
    | none => reassemble rest results

namespace hackernews

/-- Embedding of `main`: parse stdin (a parse failure raises), clamp the
limit, fetch and truncate the top-story id list (any failure raises),
collect the item fetches in completion order, reassemble in rank order
and emit `{"stories": ..., "count": len(stories)}`.  `Except.error ()`
models the process aborting with no stdout JSON object. -/
def main (w : World) : Except Unit Output :=
  match w.stdin with
  | none => Except.error ()
  | some params =>
    match w.topstories with
    | Except.error _ => Except.error ()
    | Except.ok all_ids =>
      match collectResults (truncIds params all_ids) w.fetch w.order [] with
      | Except.error _ => Except.error ()
      | Except.ok results =>
        Except.ok { stories := reassemble (truncIds params all_ids) results,
                    count := (reassemble (truncIds params all_ids) results).length }

end hackernews

open hackernews

/-- A concrete item record (id 5) used to exercise the pipeline. -/
def itemA : RawItem :=
  { id := some 5, title := some "A", by_ := some "alice", score := some 10,
    descendants := some 3, time := some 100, type := some "story" }

/-- A concrete item record (id 7) used to exercise the pipeline. -/
def itemB : RawItem :=
  { id := some 7, title := some "B", by_ := some "bob", score := some 2,
    time := some 1697040000, type := some "story" }

/-- A run in which the submission for position 0 raises and the one for
position 1 succeeds: the exception re-raised by `future.result()` aborts
the whole run. -/
def wExc : World :=
  { stdin := some ⟨some 2⟩,
    topstories := Except.ok [1, 2],
    fetch := fun p => if p = 0 then FetchResult.exc else FetchResult.val (some itemB),
    order := [0, 1] }

/-- A fully successful run: limit `3` truncates `[5, 6, 7, 8]` to
`[5, 6, 7]`; the fetch for id `6` (position 1) returns a falsy body, the
other two return items, and completion order is out of rank order. -/
def wGood : World :=
  { stdin := some ⟨some 3⟩,
    topstories := Except.ok [5, 6, 7, 8],
    fetch := fun p =>
      if p = 0 then FetchResult.val (some itemA)
      else if p = 1 then FetchResult.val none
      else FetchResult.val (some itemB),
    order := [2, 0, 1] }

/-- The results dictionary `wGood` produces: id 7 completes first, then
id 5; the falsy body for id 6 is never inserted. -/
def resGood : List (Int × RawItem) := [(7, itemB), (5, itemA)]

/-- A run whose single item fetch returns a falsy (`null`) body. -/
def wNullOnly : World :=
  { stdin := some ⟨none⟩,
    topstories := Except.ok [9],
    fetch := fun _ => FetchResult.val none,
    order := [0] }

/-- A run identical to `wNullOnly` except that the single item fetch
raises. -/
def wExcOnly : World :=
  { stdin := some ⟨none⟩,
    topstories := Except.ok [9],
    fetch := fun _ => FetchResult.exc,
    order := [0] }

/-- A run in which the top-stories request fails. -/
def wFatal : World :=
  { stdin := some ⟨some 5⟩,
    topstories := Except.error (),
    fetch := fun _ => FetchResult.val none,
    order := [] }

/-- A run whose stdin is not parseable as JSON. -/
def wBadStdin : World :=
  { stdin := none,
    topstories := Except.ok [1],
    fetch := fun _ => FetchResult.val none,
    order := [0] }

/-- A run whose truncated id list contains id 5 twice (positions 0 and
2): both submissions succeed, the later completion overwrites the
earlier entry for the duplicated key. -/
def wDup : World :=
  { stdin := some ⟨some 10⟩,
    topstories := Except.ok [5, 6, 5],
    fetch := fun p =>
      if p = 0 then FetchResult.val (some itemA)
      else if p = 1 then FetchResult.val none
      else FetchResult.val (some itemB),
    order := [0, 1, 2] }

/-- An item record with every optional field absent. -/
def itemEmpty : RawItem := {}

example : isoformatUTC 0 = "1970-01-01T00:00:00+00:00" := by decide

example : isoformatUTC 1697040000 = "2023-10-11T16:00:00+00:00" := by decide

example : main wGood =
    Except.ok { stories := [format_story itemA, format_story itemB], count := 2 } := rfl

example : main wExc = Except.error () := rfl

lemma dictLookup_insert (d : List (Int × RawItem)) (k k2 : Int) (v : RawItem) :
    dictLookup (dictInsert d k v) k2 = if k = k2 then some v else dictLookup d k2 := by
  induction d with
  | nil => by_cases h : k = k2 <;> simp [dictInsert, dictLookup, h]
  | cons kv rest ih =>
    obtain ⟨k1, v1⟩ := kv
    by_cases h1 : k1 = k
    · subst h1
      by_cases h2 : k1 = k2 <;> simp [dictInsert, dictLookup, h2]
    · by_cases h2 : k1 = k2
      · subst h2
        have hk : ¬(k = k1) := fun h => h1 h.symm
        simp [dictInsert, h1, dictLookup, hk]
      · simp [dictInsert, h1, dictLookup, h2, ih]

lemma reassemble_eq_filterMap (ids : List Int) (results : List (Int × RawItem)) :
    reassemble ids results =
      ids.filterMap (fun sid => (dictLookup results sid).map format_story) := by
  induction ids with
  | nil => rfl
  | cons sid rest ih =>
    cases h : dictLookup results sid with
    | none => simp [reassemble, h, List.filterMap_cons, ih]
    | some item => simp [reassemble, h, List.filterMap_cons, ih]

lemma reassemble_length_le (ids : List Int) (results : List (Int × RawItem)) :
    (reassemble ids results).length ≤ ids.length := by
  induction ids with
  | nil => exact Nat.le_refl 0
  | cons sid rest ih =>
    cases h : dictLookup results sid with
    | none => simp only [reassemble, h]; exact Nat.le_succ_of_le ih
    | some item => simp only [reassemble, h, List.length_cons]; exact Nat.succ_le_succ ih

lemma filterMap_get_of_take {α β : Type} (f : α → Option β) (l : List α) :
    ∀ (r : Nat) (h : r < l.length) (y : β),
      f (l.get ⟨r, h⟩) = some y →
      (l.filterMap f).get? ((l.take r).filterMap f).length = some y := by
  induction l with
  | nil => intro r h; exact absurd h (by simp)
  | cons a t ih =>
    intro r h y hy
    cases r with
    | zero =>
      simp only [List.get] at hy
      simp [List.filterMap_cons, hy]
    | succ r =>
      have h' : r < t.length := Nat.lt_of_succ_lt_succ h
      have hy' : f (t.get ⟨r, h'⟩) = some y := hy
      cases ha : f a with
      | none => simpa [List.filterMap_cons, ha] using ih r h' y hy'
      | some b => simpa [List.filterMap_cons, ha] using ih r h' y hy'

lemma take_filterMap_lt {α β : Type} (f : α → Option β) (l : List α) :
    ∀ (r1 r2 : Nat), r1 < r2 → ∀ (h : r1 < l.length) (y : β),
      f (l.get ⟨r1, h⟩) = some y →
      ((l.take r1).filterMap f).length < ((l.take r2).filterMap f).length := by
  induction l with
  | nil => intro r1 r2 _ h; exact absurd h (by simp)
  | cons a t ih =>
    intro r1 r2 h12 h y hy
    obtain ⟨r2s, rfl⟩ : ∃ r2s, r2 = r2s + 1 := ⟨r2 - 1, by omega⟩
    cases r1 with
    | zero =>
      simp only [List.get] at hy
      simp [List.filterMap_cons, hy]
    | succ r1 =>
      have h' : r1 < t.length := Nat.lt_of_succ_lt_succ h
      have hy' : f (t.get ⟨r1, h'⟩) = some y := hy
      have hlt := ih r1 r2s (by omega) h' y hy'
      cases ha : f a with
      | none => simpa [List.filterMap_cons, ha] using hlt
      | some b => simpa [List.filterMap_cons, ha] using hlt

lemma filterMap_ordered {α β : Type} (f : α → Option β) (l : List α) (r1 r2 : Nat)
    (h12 : r1 < r2) (h2 : r2 < l.length) (y1 y2 : β)
    (hy1 : f (l.get ⟨r1, Nat.lt_trans h12 h2⟩) = some y1)
    (hy2 : f (l.get ⟨r2, h2⟩) = some y2) :
    ∃ i1 i2, i1 < i2 ∧ (l.filterMap f).get? i1 = some y1 ∧
      (l.filterMap f).get? i2 = some y2 :=
  ⟨((l.take r1).filterMap f).length, ((l.take r2).filterMap f).length,
    take_filterMap_lt f l r1 r2 h12 (Nat.lt_trans h12 h2) y1 hy1,
    filterMap_get_of_take f l r1 (Nat.lt_trans h12 h2) y1 hy1,
    filterMap_get_of_take f l r2 h2 y2 hy2⟩

lemma collectResults_error (ids : List Int) (fetch : Nat → FetchResult) :
    ∀ (order : List Nat) (acc : List (Int × RawItem)) (p : Nat),
      p ∈ order → fetch p = FetchResult.exc →
      collectResults ids fetch order acc = Except.error () := by
  intro order
  induction order with
  | nil => intro acc p hp; exact absurd hp (List.not_mem_nil p)
  | cons q rest ih =>
    intro acc p hp hexc
    rcases List.mem_cons.mp hp with h | h
    · subst h; simp [collectResults, hexc]
    · cases hq : fetch q with
      | exc => simp [collectResults, hq]
      | val ob =>
        cases ob with
        | none => simpa [collectResults, hq] using ih acc p h hexc
        | some item => simpa [collectResults, hq] using ih _ p h hexc

lemma collectResults_ok (ids : List Int) (fetch : Nat → FetchResult) :
    ∀ (order : List Nat) (acc : List (Int × RawItem)),
      (∀ p ∈ order, fetch p ≠ FetchResult.exc) →
      ∃ results, collectResults ids fetch order acc = Except.ok results := by
  intro order
  induction order with
  | nil => intro acc _; exact ⟨acc, rfl⟩
  | cons q rest ih =>
    intro acc hal
    cases hq : fetch q with
    | exc => exact absurd hq (hal q (List.mem_cons_self q rest))
    | val ob =>
      cases ob with
      | none =>
        obtain ⟨res, hres⟩ := ih acc (fun p hp => hal p (List.mem_cons_of_mem q hp))
        exact ⟨res, by simpa [collectResults, hq] using hres⟩
      | some item =>
        obtain ⟨res, hres⟩ :=
          ih (dictInsert acc (ids.getD q 0) item)
            (fun p hp => hal p (List.mem_cons_of_mem q hp))
        exact ⟨res, by simpa [collectResults, hq] using hres⟩

lemma collectResults_lookup_none (ids : List Int) (fetch : Nat → FetchResult) :
    ∀ (order : List Nat) (acc results : List (Int × RawItem)) (X : Int),
      collectResults ids fetch order acc = Except.ok results →
      (∀ p ∈ order, ids.getD p 0 = X → ∀ it, fetch p ≠ FetchResult.val (some it)) →
      dictLookup acc X = none → dictLookup results X = none := by
  intro order
  induction order with
  | nil =>
    intro acc results X hok _ hacc
    simp only [collectResults, Except.ok.injEq] at hok
    exact hok ▸ hacc
  | cons q rest ih =>
    intro acc results X hok hX hacc
    cases hq : fetch q with
    | exc => simp [collectResults, hq] at hok
    | val ob =>
      cases ob with
      | none =>
        simp only [collectResults, hq] at hok
        exact ih acc results X hok (fun p hp => hX p (List.mem_cons_of_mem q hp)) hacc
      | some item =>
        simp only [collectResults, hq] at hok
        have hne : ids.getD q 0 ≠ X :=
          fun h => hX q (List.mem_cons_self q rest) h item hq
        have hacc2 : dictLookup (dictInsert acc (ids.getD q 0) item) X = none := by
          rw [dictLookup_insert, if_neg hne]; exact hacc
        exact ih _ results X hok (fun p hp => hX p (List.mem_cons_of_mem q hp)) hacc2

lemma collectResults_lookup_some (ids : List Int) (fetch : Nat → FetchResult) :
    ∀ (order : List Nat) (acc results : List (Int × RawItem)) (X : Int) (it : RawItem),
      collectResults ids fetch order acc = Except.ok results →
      dictLookup results X = some it →
      dictLookup acc X = some it ∨
        ∃ p ∈ order, ids.getD p 0 = X ∧ fetch p = FetchResult.val (some it) := by
  intro order
  induction order with
  | nil =>
    intro acc results X it hok hres
    simp only [collectResults, Except.ok.injEq] at hok
    exact Or.inl (hok ▸ hres)
  | cons q rest ih =>
    intro acc results X it hok hres
    cases hq : fetch q with
    | exc => simp [collectResults, hq] at hok
    | val ob =>
      cases ob with
      | none =>
        simp only [collectResults, hq] at hok
        rcases ih acc results X it hok hres with h | ⟨p, hp, hpx, hpf⟩
        · exact Or.inl h
        · exact Or.inr ⟨p, List.mem_cons_of_mem q hp, hpx, hpf⟩
      | some item =>
        simp only [collectResults, hq] at hok
        rcases ih _ results X it hok hres with h | ⟨p, hp, hpx, hpf⟩
        · rw [dictLookup_insert] at h
          by_cases hk : ids.getD q 0 = X
          · rw [if_pos hk] at h
            refine Or.inr ⟨q, List.mem_cons_self q rest, hk, ?_⟩
            rw [hq]
            cases h
            rfl
          · rw [if_neg hk] at h
            exact Or.inl h
        · exact Or.inr ⟨p, List.mem_cons_of_mem q hp, hpx, hpf⟩

lemma main_ok_inv (w : World) (out : Output) (h : main w = Except.ok out) :
    ∃ params all_ids results,
      w.stdin = some params ∧ w.topstories = Except.ok all_ids ∧
      collectResults (truncIds params all_ids) w.fetch w.order [] = Except.ok results ∧
      out.stories = reassemble (truncIds params all_ids) results ∧
      out.count = out.stories.length := by
  unfold main at h
  split at h
  · exact Except.noConfusion h
  next params hs =>
    split at h
    next e ht => exact Except.noConfusion h
    next all_ids ht =>
      split at h
      next e hc => exact Except.noConfusion h
      next results hc =>
        simp only [Except.ok.injEq] at h
        refine ⟨params, all_ids, results, hs, ht, hc, ?_, ?_⟩
        · rw [← h]
        · rw [← h]

lemma main_eq_branches (w : World) (params : Params) (all_ids : List Int)
    (hs : w.stdin = some params) (ht : w.topstories = Except.ok all_ids) :
    main w = match collectResults (truncIds params all_ids) w.fetch w.order [] with
      | Except.error _ => Except.error ()
      | Except.ok results =>
        Except.ok { stories := reassemble (truncIds params all_ids) results,
                    count := (reassemble (truncIds params all_ids) results).length } := by
  unfold main
  rw [hs, ht]

lemma main_stdin_params_congr (w : World) (p q : Params)
    (h : clampLimit (p.limit.getD 30) = clampLimit (q.limit.getD 30)) :
    main { w with stdin := some p } = main { w with stdin := some q } := by
  have htr : truncIds p = truncIds q := by
    funext a
    unfold truncIds
    rw [h]
  unfold main
  simp only [htr]

/-- C3: the caller-supplied `limit` is clamped to the inclusive range
[1, 500] before use and never rejected: `limit = -5` behaves identically
to `limit = 1`, `limit = 10000` to `limit = 500`, and an omitted `limit`
to `limit = 30`. -/
theorem C3_limit_clamped (w : World) :
    (∀ l : Int, 1 ≤ clampLimit l ∧ clampLimit l ≤ 500 ∧
      (1 ≤ l → l ≤ 500 → clampLimit l = l)) ∧
    main { w with stdin := some ⟨some (-5)⟩ } = main { w with stdin := some ⟨some 1⟩ } ∧
    main { w with stdin := some ⟨some 10000⟩ } = main { w with stdin := some ⟨some 500⟩ } ∧
    main { w with stdin := some ⟨none⟩ } = main { w with stdin := some ⟨some 30⟩ } := by
  refine ⟨?_, ?_, ?_, ?_⟩
  · intro l
    refine ⟨le_max_left 1 (min 500 l), max_le (by norm_num) (min_le_left 500 l), ?_⟩
    intro h1 h2
    unfold clampLimit
    rw [min_eq_right h2, max_eq_right h1]
  · exact main_stdin_params_congr w ⟨some (-5)⟩ ⟨some 1⟩ (by decide)
  · exact main_stdin_params_congr w ⟨some 10000⟩ ⟨some 500⟩ (by decide)
  · exact main_stdin_params_congr w ⟨none⟩ ⟨some 30⟩ (by decide)

/-- C3 witness: the clamp facts and behavioral equalities at the
concrete run `wGood` and at `limit = 250`. -/
theorem C3_witness :
    (1 ≤ clampLimit 250 ∧ clampLimit 250 ≤ 500 ∧
      (1 ≤ (250 : Int) → (250 : Int) ≤ 500 → clampLimit 250 = 250)) ∧
    main { wGood with stdin := some ⟨some (-5)⟩ } =
      main { wGood with stdin := some ⟨some 1⟩ } := by
  have h := C3_limit_clamped wGood
  exact ⟨h.1 250, h.2.1⟩

/-- C4: if the top-stories fetch fails (network error, non-success
status, or malformed JSON), the whole run aborts and no output object is
emitted. -/
theorem C4_fatal_list_error (w : World) (h : w.topstories = Except.error ()) :
    main w = Except.error () ∧ ∀ out, main w ≠ Except.ok out := by
  have hm : main w = Except.error () := by
    unfold main
    cases hs : w.stdin with
    | none => rfl
    | some params => rw [h]
  exact ⟨hm, fun out hcon => by rw [hm] at hcon; exact Except.noConfusion hcon⟩

/-- C4 witness: the concrete run `wFatal`, whose top-stories request
fails, aborts with no output. -/
theorem C4_witness :
    main wFatal = Except.error () ∧ ∀ out, main wFatal ≠ Except.ok out :=
  C4_fatal_list_error wFatal rfl

/-- C5: every emitted output satisfies `count = length stories`, and
with a supplied limit `L` also `0 ≤ count ≤ clamp(L, 1, 500)`. -/
theorem C5_count_invariant (w : World) (out : Output) (h : main w = Except.ok out) :
    out.count = out.stories.length ∧
    ∀ L : Int, w.stdin = some ⟨some L⟩ →
      0 ≤ (out.count : Int) ∧ (out.count : Int) ≤ clampLimit L := by
  obtain ⟨params, all_ids, results, hs, ht, hc, hst, hcnt⟩ := main_ok_inv w out h
  refine ⟨hcnt, ?_⟩
  intro L hL
  rw [hs] at hL
  have hp : params = ⟨some L⟩ := Option.some.inj hL
  refine ⟨Int.natCast_nonneg out.count, ?_⟩
  have h1 : out.count ≤ (truncIds params all_ids).length := by
    rw [hcnt, hst]
    exact reassemble_length_le _ _
  have h2 : (truncIds params all_ids).length ≤ (clampLimit (params.limit.getD 30)).toNat := by
    unfold truncIds
    rw [List.length_take]
    exact min_le_left _ _
  have h3 : params.limit.getD 30 = L := by rw [hp]; rfl
  have h4 : out.count ≤ (clampLimit L).toNat := h3 ▸ le_trans h1 h2
  have h5 : (0 : Int) ≤ clampLimit L := le_trans (by norm_num) (le_max_left 1 (min 500 L))
  calc (out.count : Int) ≤ ((clampLimit L).toNat : Int) := by exact_mod_cast h4
    _ = clampLimit L := Int.toNat_of_nonneg h5

/-- C5 witness: the concrete run `wGood` emits `count = 2`, which equals
the number of stories and is at most `clamp(3, 1, 500) = 3`. -/
theorem C5_witness :
    ({ stories := [format_story itemA, format_story itemB], count := 2 } : Output).count =
      ({ stories := [format_story itemA, format_story itemB], count := 2 } : Output).stories.length ∧
    0 ≤ ((2 : Nat) : Int) ∧ ((2 : Nat) : Int) ≤ clampLimit 3 := by
  have h := C5_count_invariant wGood
    { stories := [format_story itemA, format_story itemB], count := 2 } rfl
  exact ⟨h.1, h.2 3 rfl⟩

/-- C6: `created_at` is the ISO-8601 formatting of the item's `time`
field interpreted as seconds since the epoch in UTC, and an absent or
zero `time` maps to the UTC epoch instant. -/
theorem C6_created_at_iso_utc (item : RawItem) :
    (format_story item).created_at = isoformatUTC (item.time.getD 0) ∧
    ((item.time = none ∨ item.time = some 0) →
      (format_story item).created_at = "1970-01-01T00:00:00+00:00") := by
  refine ⟨rfl, ?_⟩
  intro h
  have ht : item.time.getD 0 = 0 := by rcases h with h | h <;> simp [h]
  show isoformatUTC (item.time.getD 0) = _
  rw [ht]
  decide

/-- C6 witness: an item with `time` absent is formatted with the epoch
instant as `created_at`. -/
theorem C6_witness :
    (format_story itemEmpty).created_at = "1970-01-01T00:00:00+00:00" :=
  (C6_created_at_iso_utc itemEmpty).2 (Or.inl rfl)

/-- C7: normalization is a pure deterministic function — formatting the
same item twice gives identical output — with `by` mapped to `author`,
`descendants` to `comment_count`, and defaults `score = 0` and
`comment_count = 0` when those source fields are absent. -/
theorem C7_normalization_pure_mapping (item : RawItem) :
    format_story item = format_story item ∧
    (format_story item).author = item.by_ ∧
    (format_story item).score = item.score.getD 0 ∧
    (format_story item).comment_count = item.descendants.getD 0 ∧
    (item.score = none → (format_story item).score = 0) ∧
    (item.descendants = none → (format_story item).comment_count = 0) := by
  refine ⟨rfl, rfl, rfl, rfl, ?_, ?_⟩ <;> intro h <;> simp [format_story, h]

/-- C7 witness: formatting the all-defaults item is deterministic and
fills in the default `score` and `comment_count`. -/
theorem C7_witness :
    format_story itemEmpty = format_story itemEmpty ∧
    (format_story itemEmpty).score = 0 ∧
    (format_story itemEmpty).comment_count = 0 := by
  have h := C7_normalization_pure_mapping itemEmpty
  exact ⟨h.1, h.2.2.2.2.1 rfl, h.2.2.2.2.2 rfl⟩

/-- C8: unparseable stdin aborts the run with no stdout JSON object,
with the same observable result as a fatal top-stories listing error. -/
theorem C8_malformed_stdin_fatal (w w2 : World) (p2 : Params) (h : w.stdin = none)
    (h1 : w2.stdin = some p2) (h2 : w2.topstories = Except.error ()) :
    main w = Except.error () ∧ (∀ out, main w ≠ Except.ok out) ∧ main w = main w2 := by
  have hm : main w = Except.error () := by unfold main; rw [h]
  have hm2 : main w2 = Except.error () := by unfold main; rw [h1, h2]
  exact ⟨hm, fun out hcon => by rw [hm] at hcon; exact Except.noConfusion hcon,
    by rw [hm, hm2]⟩

/-- C8 witness: the concrete run `wBadStdin` aborts with no output,
exactly like the fatal-listing run `wFatal`. -/
theorem C8_witness :
    main wBadStdin = Except.error () ∧ (∀ out, main wBadStdin ≠ Except.ok out) ∧
    main wBadStdin = main wFatal :=
  C8_malformed_stdin_fatal wBadStdin wFatal ⟨some 5⟩ rfl rfl rfl

/-- C1 counterexample: in `wExc` the item fetch submitted for position 0
(id 1) raises while the fetch for id 2 succeeds, yet the whole run
aborts with no output and the successfully fetched id 2 never appears —
the claimed per-item failure recovery does not hold. -/
theorem C1_counterexample :
    main wExc = Except.error () ∧ ∀ out, main wExc ≠ Except.ok out := by
  have hm : main wExc = Except.error () := rfl
  exact ⟨hm, fun out hcon => by rw [hm] at hcon; exact Except.noConfusion hcon⟩

/-- C1 (amended): an item fetch that raises (network error, non-success
status, parse error, or per-request timeout) is re-raised by
`future.result()` and aborts the entire run with no output; an id is
treated as missing and excluded from the result mapping — without
aborting the run — exactly when its fetch completes with a falsy JSON
body, in which case the remaining successfully fetched ids still appear
in the output; no fetch is ever retried. -/
theorem C1_amended_fetch_failure (w : World) (params : Params) (all_ids : List Int)
    (hs : w.stdin = some params) (ht : w.topstories = Except.ok all_ids) :
    ((∃ p ∈ w.order, w.fetch p = FetchResult.exc) → main w = Except.error ()) ∧
    ((∀ p ∈ w.order, w.fetch p ≠ FetchResult.exc) →
      ∃ results,
        collectResults (truncIds params all_ids) w.fetch w.order [] = Except.ok results ∧
        main w = Except.ok { stories := reassemble (truncIds params all_ids) results,
                             count := (reassemble (truncIds params all_ids) results).length } ∧
        ∀ X : Int, (∀ p ∈ w.order, (truncIds params all_ids).getD p 0 = X →
            ∀ it, w.fetch p ≠ FetchResult.val (some it)) →
          dictLookup results X = none) := by
  constructor
  · rintro ⟨p, hp, hexc⟩
    rw [main_eq_branches w params all_ids hs ht,
      collectResults_error (truncIds params all_ids) w.fetch w.order [] p hp hexc]
  · intro hne
    obtain ⟨results, hres⟩ := collectResults_ok (truncIds params all_ids) w.fetch w.order [] hne
    refine ⟨results, hres, ?_, ?_⟩
    · rw [main_eq_branches w params all_ids hs ht, hres]
    · intro X hX
      exact collectResults_lookup_none (truncIds params all_ids) w.fetch w.order [] results X
        hres hX rfl

/-- C1 witness: in the concrete exception-free run `wGood` the falsy
fetch for id 6 is silently excluded while the run succeeds with the
other two stories. -/
theorem C1_amended_witness :
    ∃ results,
      collectResults (truncIds ⟨some 3⟩ [5, 6, 7, 8]) wGood.fetch wGood.order [] =
        Except.ok results ∧
      main wGood = Except.ok
        { stories := reassemble (truncIds ⟨some 3⟩ [5, 6, 7, 8]) results,
          count := (reassemble (truncIds ⟨some 3⟩ [5, 6, 7, 8]) results).length } ∧
      ∀ X : Int, (∀ p ∈ wGood.order, (truncIds ⟨some 3⟩ [5, 6, 7, 8]).getD p 0 = X →
          ∀ it, wGood.fetch p ≠ FetchResult.val (some it)) →
        dictLookup results X = none :=
  (C1_amended_fetch_failure wGood ⟨some 3⟩ [5, 6, 7, 8] rfl rfl).2 (by decide)

/-- C2: in every successful run the output is exactly the rank-ordered
sequence of formatted present ids — ids absent from the fetch mapping
are silently skipped with no placeholder — and any two present ranks
r1 < r2 appear at output positions i1 < i2, whatever the completion
order recorded in the world. -/
theorem C2_rank_order_preserved (w : World) (out : Output) (params : Params)
    (all_ids : List Int) (results : List (Int × RawItem))
    (hs : w.stdin = some params) (ht : w.topstories = Except.ok all_ids)
    (hc : collectResults (truncIds params all_ids) w.fetch w.order [] = Except.ok results)
    (hrun : main w = Except.ok out) :
    out.stories = (truncIds params all_ids).filterMap
      (fun sid => (dictLookup results sid).map format_story) ∧
    ∀ r1 r2 (h12 : r1 < r2) (h2 : r2 < (truncIds params all_ids).length)
      (it1 it2 : RawItem),
      dictLookup results ((truncIds params all_ids).get ⟨r1, Nat.lt_trans h12 h2⟩) = some it1 →
      dictLookup results ((truncIds params all_ids).get ⟨r2, h2⟩) = some it2 →
      ∃ i1 i2, i1 < i2 ∧ out.stories.get? i1 = some (format_story it1) ∧
        out.stories.get? i2 = some (format_story it2) := by
  obtain ⟨params2, all2, res2, hs2, ht2, hc2, hst2, _⟩ := main_ok_inv w out hrun
  rw [hs] at hs2
  cases Option.some.inj hs2
  rw [ht] at ht2
  cases ht2
  rw [hc] at hc2
  cases hc2
  have hst : out.stories = (truncIds params all_ids).filterMap
      (fun sid => (dictLookup results sid).map format_story) := by
    rw [hst2, reassemble_eq_filterMap]
  refine ⟨hst, ?_⟩
  intro r1 r2 h12 h2 it1 it2 hl1 hl2
  rw [hst]
  exact filterMap_ordered (fun sid => (dictLookup results sid).map format_story)
    (truncIds params all_ids) r1 r2 h12 h2 (format_story it1) (format_story it2)
    (by simp only [List.get_eq_getElem] at hl1; simp [hl1])
    (by simp only [List.get_eq_getElem] at hl2; simp [hl2])

/-- C2 witness: in `wGood` the fetches complete out of rank order
(position 2 first), id 6 is skipped, and the stories for ranks 0 and 2
appear at output positions 0 and 1 in that order. -/
theorem C2_witness :
    ∃ i1 i2, i1 < i2 ∧
      ({ stories := [format_story itemA, format_story itemB], count := 2 } : Output).stories.get? i1 =
        some (format_story itemA) ∧
      ({ stories := [format_story itemA, format_story itemB], count := 2 } : Output).stories.get? i2 =
        some (format_story itemB) := by
  have h := C2_rank_order_preserved wGood
    { stories := [format_story itemA, format_story itemB], count := 2 }
    ⟨some 3⟩ [5, 6, 7, 8] resGood rfl rfl rfl rfl
  exact h.2 0 2 (by decide) (by decide) itemA itemB rfl rfl

/-- C9 counterexample: a falsy item body and a raising item fetch are
observably different: the run `wNullOnly` (single fetch returns `null`)
emits an empty result set, while the otherwise identical run `wExcOnly`
(single fetch raises) aborts with no output. -/
theorem C9_counterexample :
    main wNullOnly = Except.ok { stories := [], count := 0 } ∧
    main wExcOnly = Except.error () ∧
    main wNullOnly ≠ main wExcOnly := by
  have h1 : main wNullOnly = Except.ok { stories := [], count := 0 } := rfl
  have h2 : main wExcOnly = Except.error () := rfl
  refine ⟨h1, h2, ?_⟩
  rw [h1, h2]
  exact fun hcon => Except.noConfusion hcon

/-- C9 (amended): an id whose item fetch completes successfully with a
falsy JSON body (`null` or an empty object) is excluded from the result
mapping and hence from the output while the run itself still succeeds —
unlike a raising fetch, which aborts the whole run — and only truthy
fetched records ever enter the mapping. -/
theorem C9_amended_falsy_excluded (w : World) (params : Params) (all_ids : List Int)
    (X : Int)
    (hs : w.stdin = some params) (ht : w.topstories = Except.ok all_ids)
    (hne : ∀ p ∈ w.order, w.fetch p ≠ FetchResult.exc)
    (hX : ∀ p ∈ w.order, (truncIds params all_ids).getD p 0 = X →
      ∀ it, w.fetch p ≠ FetchResult.val (some it)) :
    ∃ results,
      collectResults (truncIds params all_ids) w.fetch w.order [] = Except.ok results ∧
      main w = Except.ok { stories := reassemble (truncIds params all_ids) results,
                           count := (reassemble (truncIds params all_ids) results).length } ∧
      dictLookup results X = none ∧
      (∀ sid it, dictLookup results sid = some it →
        ∃ p ∈ w.order, (truncIds params all_ids).getD p 0 = sid ∧
          w.fetch p = FetchResult.val (some it)) := by
  obtain ⟨results, hres⟩ := collectResults_ok (truncIds params all_ids) w.fetch w.order [] hne
  refine ⟨results, hres, ?_, ?_, ?_⟩
  · rw [main_eq_branches w params all_ids hs ht, hres]
  · exact collectResults_lookup_none (truncIds params all_ids) w.fetch w.order [] results X
      hres hX rfl
  · intro sid it hsid
    rcases collectResults_lookup_some (truncIds params all_ids) w.fetch w.order [] results
        sid it hres hsid with hacc | h
    · exact absurd hacc (by simp [dictLookup])
    · exact h

/-- C9 witness: in `wGood` the falsy fetch for id 6 leaves id 6 out of
the mapping while the run succeeds, and every mapped id stems from a
truthy fetched record. -/
theorem C9_amended_witness :
    ∃ results,
      collectResults (truncIds ⟨some 3⟩ [5, 6, 7, 8]) wGood.fetch wGood.order [] =
        Except.ok results ∧
      main wGood = Except.ok
        { stories := reassemble (truncIds ⟨some 3⟩ [5, 6, 7, 8]) results,
          count := (reassemble (truncIds ⟨some 3⟩ [5, 6, 7, 8]) results).length } ∧
      dictLookup results 6 = none ∧
      (∀ sid it, dictLookup results sid = some it →
        ∃ p ∈ wGood.order, (truncIds ⟨some 3⟩ [5, 6, 7, 8]).getD p 0 = sid ∧
          wGood.fetch p = FetchResult.val (some it)) := by
  refine C9_amended_falsy_excluded wGood ⟨some 3⟩ [5, 6, 7, 8] 6 rfl rfl (by decide) ?_
  intro p hp h6 it hit
  simp only [wGood, List.mem_cons, List.not_mem_nil, or_false] at hp
  rcases hp with rfl | rfl | rfl
  · exact absurd h6 (by decide)
  · exact absurd h6 (by decide)
  · have hv : FetchResult.val none = FetchResult.val (some it) := hit
    injection hv with hv2
    exact Option.noConfusion hv2

/-- C10: when the truncated id list contains the same id X at two
positions p1 < p2 and X is present in the fetch mapping, the output
contains one story per occurrence, all normalized from the single
record stored for X. -/
theorem C10_duplicate_ids (w : World) (out : Output) (params : Params)
    (all_ids : List Int) (results : List (Int × RawItem))
    (hs : w.stdin = some params) (ht : w.topstories = Except.ok all_ids)
    (hc : collectResults (truncIds params all_ids) w.fetch w.order [] = Except.ok results)
    (hrun : main w = Except.ok out)
    (p1 p2 : Nat) (h12 : p1 < p2) (h2 : p2 < (truncIds params all_ids).length)
    (X : Int) (item : RawItem)
    (hX1 : (truncIds params all_ids).get ⟨p1, Nat.lt_trans h12 h2⟩ = X)
    (hX2 : (truncIds params all_ids).get ⟨p2, h2⟩ = X)
    (hitem : dictLookup results X = some item) :
    ∃ i1 i2, i1 < i2 ∧ out.stories.get? i1 = some (format_story item) ∧
      out.stories.get? i2 = some (format_story item) := by
  obtain ⟨params2, all2, res2, hs2, ht2, hc2, hst2, _⟩ := main_ok_inv w out hrun
  rw [hs] at hs2
  cases Option.some.inj hs2
  rw [ht] at ht2
  cases ht2
  rw [hc] at hc2
  cases hc2
  have hst : out.stories = (truncIds params all_ids).filterMap
      (fun sid => (dictLookup results sid).map format_story) := by
    rw [hst2, reassemble_eq_filterMap]
  rw [hst]
  exact filterMap_ordered (fun sid => (dictLookup results sid).map format_story)
    (truncIds params all_ids) p1 p2 h12 h2 (format_story item) (format_story item)
    (by simp only [List.get_eq_getElem] at hX1; simp [hX1, hitem])
    (by simp only [List.get_eq_getElem] at hX2; simp [hX2, hitem])

/-- C10 witness: in `wDup` the id 5 occurs at positions 0 and 2, its
stored record is the one written last (`itemB`), and the output repeats
that story at positions 0 and 1. -/
theorem C10_witness :
    ∃ i1 i2, i1 < i2 ∧
      ({ stories := [format_story itemB, format_story itemB], count := 2 } : Output).stories.get? i1 =
        some (format_story itemB) ∧
      ({ stories := [format_story itemB, format_story itemB], count := 2 } : Output).stories.get? i2 =
        some (format_story itemB) :=
  C10_duplicate_ids wDup
    { stories := [format_story itemB, format_story itemB], count := 2 }
    ⟨some 10⟩ [5, 6, 5] [(5, itemB)] rfl rfl rfl rfl
    0 2 (by decide) (by decide) 5 itemB rfl rfl rfl
